import Mathlib

/-!
Shallow embedding of the "Scrolls of Skelos" note-taking application
(the `NotesApp` program: `Note`, `NotesApp`, and its store operations).

Modelling conventions:
* Go strings are lists of characters (`GoStr`); `strings.ToLower`,
  `strings.Contains`, `strings.TrimSpace` and `strings.Split(s, ",")` are
  embedded as `goToLower`, `goContains`, `goTrimSpace`, `goSplitComma`.
  `goToLower` lowers characters the way the claims exercise it (ASCII);
  the claims are insensitive to the exact lowercase table because both the
  operation and its specification predicate use the same one.
* `time.Time` values are natural-number timestamps; each operation takes
  the current time `now` as an argument (the two `time.Now()` calls at
  creation are modelled as one instant, as the spec's timestamps are).
* The on-disk `scrolls.json` document is carried in the state as
  `configFile : Option Doc`: `none` models an absent file, `Doc.malformed`
  a syntactically invalid document (Go's `json.Unmarshal` validates the
  syntax of the whole input before writing any field, so a malformed
  document leaves the target untouched), and `Doc.ok` a well-formed
  document whose `notes` / `next_id` keys may each independently be
  absent (`json.Unmarshal` leaves fields that are absent from the
  document unchanged). `ioutil.WriteFile` is modelled by replacing
  `configFile`; `MarshalIndent` of the app is `marshalApp`, which records
  exactly the notes array and the counter (the two path fields of the Go
  struct do not affect any claim and are omitted).
* The external screenshot capability is abstracted, as the spec directs,
  into the outcome bits `captureOk` (the command ran and reported
  success) and `fileCreated` (the target file exists afterwards),
  together with the target path/filename it would produce.
-/

abbrev GoStr := List Char

def goToLower (s : GoStr) : GoStr := s.map Char.toLower

/-- Does `s` start with `pre`? Helper for substring containment. -/
def goStartsWith : GoStr → GoStr → Bool
  | _, [] => true
  | [], _ :: _ => false
  | c :: s, d :: t => c == d && goStartsWith s t

/-- `strings.Contains s sub`: `sub` occurs as a contiguous substring of `s`. -/
def goContains : GoStr → GoStr → Bool
  | [], sub => goStartsWith [] sub
  | c :: s, sub => goStartsWith (c :: s) sub || goContains s sub

/-- Whitespace characters removed by `strings.TrimSpace` (ASCII part). -/
def goIsSpace (c : Char) : Bool :=
  c == ' ' || c == '\t' || c == '\n' || c == '\x0b' || c == '\x0c' || c == '\r'

/-- `strings.TrimSpace`: drop leading and trailing whitespace. -/
def goTrimSpace (s : GoStr) : GoStr :=
  ((s.dropWhile goIsSpace).reverse.dropWhile goIsSpace).reverse

/-- `strings.Split s ","`: split on every comma; never returns an empty list. -/
def goSplitComma : GoStr → List GoStr
  | [] => [[]]
  | c :: rest =>
    match goSplitComma rest with
    | [] => [[]]
    | g :: gs => if c == ',' then [] :: g :: gs else (c :: g) :: gs

/-- The `Type` discriminator value of text notes. -/
def textKind : GoStr := ['t', 'e', 'x', 't']

/-- The `Type` discriminator value of image (screenshot) notes. -/
def screenshotKind : GoStr := ['s', 'c', 'r', 'e', 'e', 'n', 's', 'h', 'o', 't']

/-- The `Note` struct of the application. -/
structure Note where
  id : Int
  title : GoStr
  content : GoStr
  tags : List GoStr
  createdAt : Nat
  updatedAt : Nat
  type : GoStr
  filePath : GoStr
  screenshot : GoStr
deriving DecidableEq, Repr

/-- The persisted `scrolls.json` document. `ok` is a syntactically valid
JSON object whose `notes` and `next_id` keys may each be absent;
`malformed` is a syntactically invalid document. -/
inductive Doc where
  | ok (notes : Option (List Note)) (nextID : Option Int) : Doc
  | malformed : Doc
deriving DecidableEq, Repr

/-- The `NotesApp` struct: in-memory collection, ID counter, and the
content of the collection document on disk. -/
structure NotesApp where
  notes : List Note
  nextID : Int
  configFile : Option Doc
deriving DecidableEq, Repr

/-- `json.MarshalIndent(app, ...)`: the document always carries both the
notes array and the counter. -/
def marshalApp (app : NotesApp) : Doc := .ok (some app.notes) (some app.nextID)

/-- `SaveNotes`: rewrite the whole collection document. -/
def saveNotes (app : NotesApp) : NotesApp :=
  { app with configFile := some (marshalApp app) }

/-- `LoadNotes`: a missing file or a malformed document leaves the app
unchanged; a valid document overwrites exactly the fields it carries. -/
def loadNotes (app : NotesApp) : NotesApp :=
  match app.configFile with
  | none => app
  | some .malformed => app
  | some (.ok onotes onextID) =>
      { app with
        notes := onotes.getD app.notes
        nextID := onextID.getD app.nextID }

/-- `NewNotesApp`: fresh state (`Notes = []`, `NextID = 1`) followed by
`LoadNotes` on whatever document is on disk. -/
def newNotesApp (file : Option Doc) : NotesApp :=
  loadNotes { notes := [], nextID := 1, configFile := file }

/-- `CreateTextNote title content tags`: unconditionally builds the note,
appends it, bumps the counter, saves. -/
def createTextNote (app : NotesApp) (title content : GoStr) (tags : List GoStr)
    (now : Nat) : NotesApp :=
  let note : Note :=
    { id := app.nextID, title := title, content := content, tags := tags,
      createdAt := now, updatedAt := now, type := textKind,
      filePath := [], screenshot := [] }
  saveNotes { app with notes := app.notes ++ [note], nextID := app.nextID + 1 }

/-- `TakeScreenshot title tags`: if the capture command fails, or the
target file does not exist afterwards, return with no change; otherwise
append the screenshot note, bump the counter, save. -/
def takeScreenshot (app : NotesApp) (title : GoStr) (tags : List GoStr) (now : Nat)
    (capturePath captureName : GoStr) (captureOk fileCreated : Bool) : NotesApp :=
  if captureOk = false then app
  else if fileCreated = false then app
  else
    let note : Note :=
      { id := app.nextID, title := title, content := [], tags := tags,
        createdAt := now, updatedAt := now, type := screenshotKind,
        filePath := capturePath, screenshot := captureName }
    saveNotes { app with notes := app.notes ++ [note], nextID := app.nextID + 1 }

/-- The comparison `sort.Slice` uses in `ListNotes`:
`notes[i].CreatedAt.After(notes[j].CreatedAt)`, i.e. newest first. -/
def noteLe (a b : Note) : Bool := decide (b.createdAt ≤ a.createdAt)

/-- `ListNotes`: an empty archive returns at once; otherwise the notes
slice is sorted in place, newest first, and rendered. -/
def listNotes (app : NotesApp) : NotesApp :=
  if app.notes = [] then app
  else { app with notes := app.notes.mergeSort noteLe }

/-- `containsTag tags query`: some tag contains the (already lowered)
query, case-insensitively. -/
def containsTag (tags : List GoStr) (query : GoStr) : Bool :=
  tags.any (fun tag => goContains (goToLower tag) query)

/-- The match test of `SearchNotes` for one note, `query` already
lowered: title, content (of every note), or any tag. -/
def noteMatches (query : GoStr) (n : Note) : Bool :=
  goContains (goToLower n.title) query ||
    goContains (goToLower n.content) query ||
    containsTag n.tags query

/-- The accumulation loop of `SearchNotes` over the notes slice. -/
def searchLoop (query : GoStr) : List Note → List Note
  | [] => []
  | n :: rest =>
    if noteMatches query n then n :: searchLoop query rest
    else searchLoop query rest

/-- `SearchNotes query`: lower the query once, then collect the matches
in stored order. Non-mutating. -/
def searchNotes (app : NotesApp) (query : GoStr) : List Note :=
  searchLoop (goToLower query) app.notes

/-- The field updates `EditScroll` applies to the found note: blank
(after trimming) means keep current; content is only edited for text
notes; tags are re-split when supplied; `UpdatedAt` is always stamped. -/
def editNote (n : Note) (newTitle newContent newTagsInput : GoStr) (now : Nat) : Note :=
  let t := goTrimSpace newTitle
  let n₁ := if t ≠ [] then { n with title := t } else n
  let n₂ :=
    if n.type = textKind then
      let c := goTrimSpace newContent
      if c ≠ [] then { n₁ with content := c } else n₁
    else n₁
  let ti := goTrimSpace newTagsInput
  let n₃ :=
    if ti ≠ [] then { n₂ with tags := (goSplitComma ti).map goTrimSpace } else n₂
  { n₃ with updatedAt := now }

/-- The search loop of `EditScroll`: edit the first note carrying the ID;
`none` when no note carries it (then nothing is saved). -/
def editScrollLoop (id : Int) (newTitle newContent newTagsInput : GoStr) (now : Nat) :
    List Note → Option (List Note)
  | [] => none
  | n :: rest =>
    if n.id = id then some (editNote n newTitle newContent newTagsInput now :: rest)
    else
      match editScrollLoop id newTitle newContent newTagsInput now rest with
      | none => none
      | some rest' => some (n :: rest')

/-- `EditScroll id`: apply the edits to the first note with the ID and
save; an unknown ID changes nothing. -/
def editScroll (app : NotesApp) (id : Int) (newTitle newContent newTagsInput : GoStr)
    (now : Nat) : NotesApp :=
  match editScrollLoop id newTitle newContent newTagsInput now app.notes with
  | none => app
  | some notes' => saveNotes { app with notes := notes' }

/-- The loop of `RetitleScroll`: on the first note with the ID, a
non-blank trimmed title is applied (with an `UpdatedAt` stamp); a blank
one leaves the note as it is and nothing is saved (`none` also covers the
unknown-ID case, which likewise changes nothing). -/
def retitleLoop (id : Int) (t : GoStr) (now : Nat) : List Note → Option (List Note)
  | [] => none
  | n :: rest =>
    if n.id = id then
      if t ≠ [] then some ({ n with title := t, updatedAt := now } :: rest) else none
    else
      match retitleLoop id t now rest with
      | none => none
      | some rest' => some (n :: rest')

/-- `RetitleScroll id`: trim the entered title, then retitle the first
note with the ID and save, or report and change nothing. -/
def retitleScroll (app : NotesApp) (id : Int) (rawTitle : GoStr) (now : Nat) : NotesApp :=
  match retitleLoop id (goTrimSpace rawTitle) now app.notes with
  | none => app
  | some notes' => saveNotes { app with notes := notes' }

/-- The loop of `RecaptureImage`: on the first note with the ID, a
non-screenshot note is rejected, a failed capture or a missing target
file aborts (all three cases change nothing and save nothing, `none`);
otherwise the image fields are replaced and `UpdatedAt` stamped. The
best-effort deletion of the old image file touches only the filesystem,
never the collection, and is not modelled. -/
def recaptureLoop (id : Int) (now : Nat) (newPath newName : GoStr)
    (captureOk fileCreated : Bool) : List Note → Option (List Note)
  | [] => none
  | n :: rest =>
    if n.id = id then
      if n.type ≠ screenshotKind then none
      else if captureOk = false then none
      else if fileCreated = false then none
      else
        some ({ n with filePath := newPath, screenshot := newName, updatedAt := now } :: rest)
    else
      match recaptureLoop id now newPath newName captureOk fileCreated rest with
      | none => none
      | some rest' => some (n :: rest')

/-- `RecaptureImage id`: replace the image of the first note with the ID
and save; rejection, capture failure, and unknown ID change nothing. -/
def recaptureImage (app : NotesApp) (id : Int) (now : Nat) (newPath newName : GoStr)
    (captureOk fileCreated : Bool) : NotesApp :=
  match recaptureLoop id now newPath newName captureOk fileCreated app.notes with
  | none => app
  | some notes' => saveNotes { app with notes := notes' }

/-- Newest-first: each note's creation time is at least that of every
later note in the list. -/
def newestFirst (l : List Note) : Prop :=
  List.Pairwise (fun a b => noteLe a b = true) l

/-- Modelled from the spec's match policy, word for word: case-insensitive
substring match against the title, the content of text notes only, or any
tag. Used to compare the claimed policy against `searchNotes`. -/
def specMatchTextOnly (q : GoStr) (n : Note) : Bool :=
  goContains (goToLower n.title) (goToLower q) ||
    (n.type == textKind && goContains (goToLower n.content) (goToLower q)) ||
    n.tags.any (fun tag => goContains (goToLower tag) (goToLower q))

/-- The match policy the code implements, stated independently of the
search loop: case-insensitive substring match against the title, the
content of every note regardless of kind, or any tag. -/
def specMatch (q : GoStr) (n : Note) : Bool :=
  goContains (goToLower n.title) (goToLower q) ||
    goContains (goToLower n.content) (goToLower q) ||
    n.tags.any (fun tag => goContains (goToLower tag) (goToLower q))

/-- A note as it can sit in a persisted document: ID 5, text kind. -/
def loadedNote : Note :=
  { id := 5, title := ['t'], content := [], tags := [], createdAt := 0,
    updatedAt := 0, type := textKind, filePath := [], screenshot := [] }

/-- A screenshot-kind note carrying content, as a persisted document can
hold (the program itself always stores image notes with empty content). -/
def contentImageNote : Note :=
  { id := 1, title := ['t'], content := ['z', 'z'], tags := [], createdAt := 0,
    updatedAt := 0, type := screenshotKind, filePath := [], screenshot := [] }

/-- Store state loaded from a document holding `contentImageNote`. -/
def contentImageApp : NotesApp :=
  newNotesApp (some (.ok (some [contentImageNote]) (some 2)))

/-- Store state reached from a fresh start by two text-note creations at
times 1 and 2: the notes slice holds them oldest first. -/
def seqApp : NotesApp :=
  createTextNote (createTextNote (newNotesApp none) ['a'] [] [] 1) ['a'] [] [] 2

/-- The first note of `seqApp` (ID 1, created at time 1). -/
def seqNote₁ : Note :=
  { id := 1, title := ['a'], content := [], tags := [], createdAt := 1,
    updatedAt := 1, type := textKind, filePath := [], screenshot := [] }

/-- A store whose notes slice is already sorted newest first. -/
def sortedApp : NotesApp :=
  { notes :=
      [{ id := 2, title := ['a'], content := [], tags := [], createdAt := 2,
         updatedAt := 2, type := textKind, filePath := [], screenshot := [] },
       { id := 1, title := ['a'], content := [], tags := [], createdAt := 1,
         updatedAt := 1, type := textKind, filePath := [], screenshot := [] }],
    nextID := 3, configFile := none }

/-! Helper lemmas about the embedded operations. -/

theorem searchLoop_eq_filter (query : GoStr) (l : List Note) :
    searchLoop query l = l.filter (noteMatches query) := by
  induction l with
  | nil => rfl
  | cons n rest ih =>
    by_cases h : noteMatches query n = true
    · simp [searchLoop, List.filter, h, ih]
    · simp [searchLoop, List.filter, h, ih]

theorem mem_listNotes (app : NotesApp) (n : Note) :
    n ∈ (listNotes app).notes ↔ n ∈ app.notes := by
  unfold listNotes
  by_cases h : app.notes = []
  · simp [h]
  · simp [h, List.mem_mergeSort]

theorem retitleLoop_blank (id : Int) (now : Nat) (l : List Note) :
    retitleLoop id [] now l = none := by
  induction l with
  | nil => rfl
  | cons n rest ih =>
    unfold retitleLoop
    by_cases h : n.id = id
    · simp [h]
    · simp [h, ih]

theorem recaptureLoop_none_of_not_image (id : Int) (now : Nat) (newPath newName : GoStr)
    (captureOk fileCreated : Bool) (n : Note) (l : List Note)
    (hfind : l.find? (fun m => m.id == id) = some n)
    (hkind : n.type ≠ screenshotKind) :
    recaptureLoop id now newPath newName captureOk fileCreated l = none := by
  induction l with
  | nil => simp at hfind
  | cons m rest ih =>
    by_cases h : m.id = id
    · have hm : n = m := by
        rw [List.find?_cons_of_pos _ (by simpa using h)] at hfind
        exact (Option.some_inj.mp hfind).symm
      unfold recaptureLoop
      simp [h, hm ▸ hkind]
    · rw [List.find?_cons_of_neg _ (by simpa using h)] at hfind
      unfold recaptureLoop
      simp [h, ih hfind]

theorem editNote_id (n : Note) (newTitle newContent newTagsInput : GoStr) (now : Nat) :
    (editNote n newTitle newContent newTagsInput now).id = n.id := by
  simp only [editNote, apply_ite Note.id]
  simp

theorem editNote_createdAt (n : Note) (newTitle newContent newTagsInput : GoStr) (now : Nat) :
    (editNote n newTitle newContent newTagsInput now).createdAt = n.createdAt := by
  simp only [editNote, apply_ite Note.createdAt]
  simp

theorem editNote_updatedAt (n : Note) (newTitle newContent newTagsInput : GoStr) (now : Nat) :
    (editNote n newTitle newContent newTagsInput now).updatedAt = now := by
  simp only [editNote]

theorem editScroll_found (app : NotesApp) (id : Int) (newTitle newContent newTagsInput : GoStr)
    (now : Nat) (n : Note) (hfind : app.notes.find? (fun m => m.id == id) = some n) :
    (editScroll app id newTitle newContent newTagsInput now).notes.find?
      (fun m => m.id == id) = some (editNote n newTitle newContent newTagsInput now) := by
  suffices h : ∀ l : List Note, l.find? (fun m => m.id == id) = some n →
      ∃ l', editScrollLoop id newTitle newContent newTagsInput now l = some l' ∧
        l'.find? (fun m => m.id == id) =
          some (editNote n newTitle newContent newTagsInput now) by
    obtain ⟨l', hl', hfound⟩ := h app.notes hfind
    unfold editScroll
    rw [hl']
    exact hfound
  intro l
  induction l with
  | nil => simp
  | cons m rest ih =>
    intro hf
    by_cases h : m.id = id
    · have hm : n = m := by
        rw [List.find?_cons_of_pos _ (by simpa using h)] at hf
        exact (Option.some_inj.mp hf).symm
      refine ⟨editNote m newTitle newContent newTagsInput now :: rest, ?_, ?_⟩
      · unfold editScrollLoop
        simp [h]
      · subst hm
        exact List.find?_cons_of_pos _ (by simpa [editNote_id] using h)
    · rw [List.find?_cons_of_neg _ (by simpa using h)] at hf
      obtain ⟨l', hl', hfound⟩ := ih hf
      refine ⟨m :: l', ?_, ?_⟩
      · unfold editScrollLoop
        simp [h, hl']
      · rw [List.find?_cons_of_neg _ (by simpa using h)]
        exact hfound

/-! The claims. -/

/-- Claim C1 (code divergence): loading a collection document whose
`next_id` field is absent leaves the store counter at its initial value 1
although a loaded note carries ID 5, and a persisted counter of 2 is
likewise trusted although it is not greater than the largest loaded ID.
The claimed reconciliation (`nextId` at least one greater than the
largest loaded ID) does not happen in `LoadNotes`. -/
theorem c1_load_trusts_stale_counter :
    (newNotesApp (some (.ok (some [loadedNote]) none))).notes = [loadedNote] ∧
    (newNotesApp (some (.ok (some [loadedNote]) none))).nextID = 1 ∧
    loadedNote.id = 5 ∧
    ¬ (∀ n ∈ (newNotesApp (some (.ok (some [loadedNote]) none))).notes,
        n.id < (newNotesApp (some (.ok (some [loadedNote]) none))).nextID) ∧
    (newNotesApp (some (.ok (some [loadedNote]) (some 2)))).nextID = 2 := by
  decide

/-- Claim C2 (code divergence): `CreateTextNote` called with an empty
title — exactly what the command loop passes through when the user enters
a blank line — creates a note with empty title, increments the counter,
and rewrites the collection document; nothing rejects it. -/
theorem c2_empty_title_accepted :
    (createTextNote (newNotesApp none) [] ['c'] [] 1).notes.map (fun n => n.title)
        = [[]] ∧
    (createTextNote (newNotesApp none) [] ['c'] [] 1).nextID = 2 ∧
    (createTextNote (newNotesApp none) [] ['c'] [] 1).configFile
        ≠ (newNotesApp none).configFile := by
  decide

/-- Claim C3: saving any store state and reloading it into a fresh app
yields identical notes and the identical counter, while start-up over a
missing or malformed document yields the empty collection with the
initial counter instead of aborting. -/
theorem c3_save_load_roundtrip (app : NotesApp) :
    (newNotesApp (some (marshalApp app))).notes = app.notes ∧
    (newNotesApp (some (marshalApp app))).nextID = app.nextID ∧
    (newNotesApp none).notes = [] ∧
    (newNotesApp none).nextID = 1 ∧
    (newNotesApp (some .malformed)).notes = [] ∧
    (newNotesApp (some .malformed)).nextID = 1 :=
  ⟨rfl, rfl, rfl, rfl, rfl, rfl⟩

/-- Claim C7: if the capture capability reports failure, or the target
file does not exist after the capture, `TakeScreenshot` leaves the whole
store — notes, counter, and persisted document — unchanged. -/
theorem c7_capture_failure_no_change (app : NotesApp) (title : GoStr)
    (tags : List GoStr) (now : Nat) (capturePath captureName : GoStr)
    (captureOk fileCreated : Bool)
    (h : captureOk = false ∨ fileCreated = false) :
    takeScreenshot app title tags now capturePath captureName captureOk fileCreated
      = app := by
  rcases h with h | h
  · simp [takeScreenshot, h]
  · simp [takeScreenshot, h]

/-- Witness for C7 at a concrete input: a failed capture on the
two-note store changes nothing. -/
theorem c7_witness :
    (false = false ∨ true = false) ∧
    takeScreenshot seqApp ['t'] [] 9 ['p'] ['f'] false true = seqApp :=
  ⟨Or.inl rfl,
    c7_capture_failure_no_change seqApp ['t'] [] 9 ['p'] ['f'] false true (Or.inl rfl)⟩

/-- Counterexample for C4: on a store loaded from a document holding a
screenshot-kind note whose content is `zz`, the search for `zz` returns
that note although the claimed text-notes-only match policy rejects it —
`SearchNotes` checks the content of every note, whatever its kind. -/
theorem c4_counterexample :
    searchNotes contentImageApp ['z', 'z'] = [contentImageNote] ∧
    specMatchTextOnly (['z', 'z']) contentImageNote = false := by
  decide

/-- Claim C4 as amended: for every store state and non-empty query `q`,
`SearchNotes` returns exactly those notes for which `q` is a
case-insensitive substring of the title, of the content (checked for
every note regardless of kind — image notes created by the program have
empty content, so for program-created notes this coincides with the
text-notes-only policy), or of at least one tag; a query matching no
note returns the empty sequence. -/
theorem c4_search_is_filter (app : NotesApp) (q : GoStr) (_hq : q ≠ []) :
    searchNotes app q = app.notes.filter (specMatch q) ∧
    (∀ n : Note, n ∈ searchNotes app q ↔
      n ∈ (listNotes app).notes ∧ specMatch q n = true) ∧
    ((∀ n ∈ app.notes, specMatch q n = false) → searchNotes app q = []) := by
  have hfilter : searchNotes app q = app.notes.filter (specMatch q) := by
    unfold searchNotes
    rw [searchLoop_eq_filter]
    rfl
  refine ⟨hfilter, ?_, ?_⟩
  · intro n
    rw [hfilter, mem_listNotes, List.mem_filter]
  · intro hall
    rw [hfilter]
    rw [List.filter_eq_nil_iff]
    intro n hn
    simp [hall n hn]

/-- Witness for C4 at a concrete input: the query `z` on the
image-note store. -/
theorem c4_witness :
    (['z'] : GoStr) ≠ [] ∧
    (searchNotes contentImageApp ['z'] = contentImageApp.notes.filter (specMatch ['z']) ∧
      (∀ n : Note, n ∈ searchNotes contentImageApp ['z'] ↔
        n ∈ (listNotes contentImageApp).notes ∧ specMatch (['z']) n = true) ∧
      ((∀ n ∈ contentImageApp.notes, specMatch (['z']) n = false) →
        searchNotes contentImageApp ['z'] = [])) :=
  ⟨by decide, c4_search_is_filter contentImageApp ['z'] (by decide)⟩

/-- Counterexample for C5: after two creations (times 1 and 2) from a
fresh store, a search matching both notes returns them oldest first —
creation times `[1, 2]` — which is not the newest-first order, because
`SearchNotes` walks the stored slice without the sort `ListNotes`
performs. -/
theorem c5_counterexample :
    (searchNotes seqApp ['a']).map (fun n => n.createdAt) = [1, 2] ∧
    ¬ newestFirst (searchNotes seqApp ['a']) := by
  constructor
  · decide
  · unfold newestFirst
    decide

/-- Claim C5 as amended: `SearchNotes` preserves the stored order of the
notes slice (it filters without re-sorting), so whenever the stored
slice is newest-first — as it is right after `ListNotes` has sorted it —
the search result is newest-first as well. -/
theorem c5_search_preserves_order (app : NotesApp) (q : GoStr)
    (h : newestFirst app.notes) : newestFirst (searchNotes app q) := by
  unfold searchNotes
  rw [searchLoop_eq_filter]
  exact h.sublist (List.filter_sublist _)

/-- Witness for C5 at a concrete input: the already-sorted two-note
store. -/
theorem c5_witness :
    newestFirst sortedApp.notes ∧ newestFirst (searchNotes sortedApp ['a']) :=
  ⟨by unfold newestFirst; decide,
    c5_search_preserves_order sortedApp ['a'] (by unfold newestFirst; decide)⟩

/-- Claim C6: from any store whose counter exceeds every existing ID —
as in a fresh store, and preserved by every creation — `CreateTextNote`
appends a note whose ID is the counter value, strictly greater than
every previously assigned ID; the invariant holds again afterwards, and
`ListNotes` run immediately after the creation includes the new note. -/
theorem c6_create_id_monotone (app : NotesApp) (title content : GoStr)
    (tags : List GoStr) (now : Nat)
    (hinv : ∀ n ∈ app.notes, n.id < app.nextID) :
    ∃ note : Note,
      (createTextNote app title content tags now).notes = app.notes ++ [note] ∧
      note.id = app.nextID ∧
      (∀ n ∈ app.notes, n.id < note.id) ∧
      (∀ n ∈ (createTextNote app title content tags now).notes,
        n.id < (createTextNote app title content tags now).nextID) ∧
      note ∈ (listNotes (createTextNote app title content tags now)).notes := by
  refine ⟨⟨app.nextID, title, content, tags, now, now, textKind, [], []⟩,
    rfl, rfl, hinv, ?_, ?_⟩
  · intro n hn
    have hn' : n ∈ app.notes ++
        [(⟨app.nextID, title, content, tags, now, now, textKind, [], []⟩ : Note)] := hn
    show n.id < app.nextID + 1
    rcases List.mem_append.mp hn' with h | h
    · have := hinv n h
      omega
    · have hn2 := List.mem_singleton.mp h
      subst hn2
      show app.nextID < app.nextID + 1
      omega
  · rw [mem_listNotes]
    show _ ∈ app.notes ++ [_]
    exact List.mem_append.mpr (Or.inr (List.mem_singleton.mpr rfl))

/-- Witness for C6 at a concrete input: the fresh store, which satisfies
the counter invariant vacuously. -/
theorem c6_witness :
    (∀ n ∈ (newNotesApp none).notes, n.id < (newNotesApp none).nextID) ∧
    (∃ note : Note,
      (createTextNote (newNotesApp none) ['a'] [] [] 1).notes
          = (newNotesApp none).notes ++ [note] ∧
      note.id = (newNotesApp none).nextID ∧
      (∀ n ∈ (newNotesApp none).notes, n.id < note.id) ∧
      (∀ n ∈ (createTextNote (newNotesApp none) ['a'] [] [] 1).notes,
        n.id < (createTextNote (newNotesApp none) ['a'] [] [] 1).nextID) ∧
      note ∈ (listNotes (createTextNote (newNotesApp none) ['a'] [] [] 1)).notes) :=
  ⟨by decide, c6_create_id_monotone (newNotesApp none) ['a'] [] [] 1 (by decide)⟩

/-- Counterexample for C8: the all-keep-current edit (every input blank)
of note 1 in the two-note store is a no-op choice — title, content and
tags are unchanged — yet `EditScroll` still bumps its `updatedAt` from 1
to 9 and leaves the other note alone, contradicting the claim's "in
which case updatedAt is not bumped". -/
theorem c8_counterexample :
    ((editScroll seqApp 1 [] [] [] 9).notes.map fun m => m.updatedAt) = [9, 2] ∧
    (seqApp.notes.map fun m => m.updatedAt) = [1, 2] ∧
    ((editScroll seqApp 1 [] [] [] 9).notes.map fun m => (m.title, m.content, m.tags))
      = (seqApp.notes.map fun m => (m.title, m.content, m.tags)) := by
  decide

/-- Claim C8 as amended: editing an existing note stamps its `updatedAt`
with the current time on every successful edit — greater than or equal
to the previous `updatedAt` under a monotone clock, different from
`createdAt` whenever the clock has moved past creation — including when
every field is kept current (the no-op choice bumps `updatedAt` too),
while `createdAt` is untouched. -/
theorem c8_edit_always_bumps (app : NotesApp) (id : Int)
    (newTitle newContent newTagsInput : GoStr) (now : Nat) (n : Note)
    (hfind : app.notes.find? (fun m => m.id == id) = some n)
    (hmono : n.updatedAt ≤ now) :
    (editScroll app id newTitle newContent newTagsInput now).notes.find?
        (fun m => m.id == id)
        = some (editNote n newTitle newContent newTagsInput now) ∧
    (editNote n newTitle newContent newTagsInput now).updatedAt = now ∧
    n.updatedAt ≤ (editNote n newTitle newContent newTagsInput now).updatedAt ∧
    (editNote n newTitle newContent newTagsInput now).createdAt = n.createdAt ∧
    (now ≠ n.createdAt →
      (editNote n newTitle newContent newTagsInput now).updatedAt
        ≠ (editNote n newTitle newContent newTagsInput now).createdAt) := by
  refine ⟨editScroll_found app id newTitle newContent newTagsInput now n hfind,
    editNote_updatedAt n newTitle newContent newTagsInput now, ?_,
    editNote_createdAt n newTitle newContent newTagsInput now, ?_⟩
  · rw [editNote_updatedAt]
    exact hmono
  · intro hne
    rw [editNote_updatedAt, editNote_createdAt]
    exact hne

/-- Witness for C8 at a concrete input: retitling note 1 of the two-note
store to `b` at time 9. -/
theorem c8_witness :
    seqApp.notes.find? (fun m => m.id == 1) = some seqNote₁ ∧
    seqNote₁.updatedAt ≤ 9 ∧
    ((editScroll seqApp 1 ['b'] [] [] 9).notes.find? (fun m => m.id == 1)
        = some (editNote seqNote₁ ['b'] [] [] 9) ∧
      (editNote seqNote₁ ['b'] [] [] 9).updatedAt = 9 ∧
      seqNote₁.updatedAt ≤ (editNote seqNote₁ ['b'] [] [] 9).updatedAt ∧
      (editNote seqNote₁ ['b'] [] [] 9).createdAt = seqNote₁.createdAt ∧
      (9 ≠ seqNote₁.createdAt →
        (editNote seqNote₁ ['b'] [] [] 9).updatedAt
          ≠ (editNote seqNote₁ ['b'] [] [] 9).createdAt)) :=
  ⟨by decide, by decide,
    c8_edit_always_bumps seqApp 1 ['b'] [] [] 9 seqNote₁ (by decide) (by decide)⟩

/-- Claim C9: `RecaptureImage` on a note whose kind is text is rejected
before anything happens: the note, the rest of the collection, the
counter, and the persisted document are all exactly as before. -/
theorem c9_recapture_text_rejected (app : NotesApp) (id : Int) (now : Nat)
    (newPath newName : GoStr) (captureOk fileCreated : Bool) (n : Note)
    (hfind : app.notes.find? (fun m => m.id == id) = some n)
    (htext : n.type = textKind) :
    recaptureImage app id now newPath newName captureOk fileCreated = app := by
  unfold recaptureImage
  rw [recaptureLoop_none_of_not_image id now newPath newName captureOk fileCreated
    n app.notes hfind (by rw [htext]; decide)]

/-- Witness for C9 at a concrete input: recapturing text note 1 of the
two-note store changes nothing. -/
theorem c9_witness :
    seqApp.notes.find? (fun m => m.id == 1) = some seqNote₁ ∧
    seqNote₁.type = textKind ∧
    recaptureImage seqApp 1 9 ['p'] ['f'] true true = seqApp :=
  ⟨by decide, by decide,
    c9_recapture_text_rejected seqApp 1 9 ['p'] ['f'] true true seqNote₁
      (by decide) (by decide)⟩

/-- Claim C10: `RetitleScroll` with a new title that trims to empty —
empty or all-whitespace input — changes nothing at all: every note is
untouched and the collection document is not rewritten (the store,
including its persisted document, is exactly the one before the call). -/
theorem c10_retitle_blank_noop (app : NotesApp) (id : Int) (rawTitle : GoStr)
    (now : Nat) (h : goTrimSpace rawTitle = []) :
    retitleScroll app id rawTitle now = app := by
  unfold retitleScroll
  rw [h, retitleLoop_blank]

/-- Witness for C10 at a concrete input: an all-whitespace title for
note 1 of the two-note store. -/
theorem c10_witness :
    goTrimSpace ([' ', '\t']) = [] ∧
    retitleScroll seqApp 1 ([' ', '\t']) 9 = seqApp :=
  ⟨by decide, c10_retitle_blank_noop seqApp 1 ([' ', '\t']) 9 (by decide)⟩
